import Mathlib

/-!
Verification of the make-ki-pdfservice concurrency and resource-management core.

This file is a shallow embedding of the worker-pool, admission-queue and
quality-degradation code of `src/index.js` (the v2.4.0 service: `_acquireImmediate`,
`_release`, `acquireContextWait`, `renderWithOptions`, `renderToBufferAdaptive`,
`checkAndSlimPayload`, `handleRender`) together with the reuse-limited context pool
of the `src/unnamed/part_002` variant (`createContext`, `acquireContext`,
`releaseContext`, `warmupPool`, and the `uses` map with `CONTEXT_REUSE_LIMIT`).

Browser contexts are identified by natural numbers.  The Puppeteer renderer is an
external capability and is modelled as an oracle giving the outcome of each render
attempt; HTML strings are abstracted by their UTF-8 byte lengths, with the byte
lengths produced by the pure text transforms (`sanitize`, `slimHtml`) supplied as
oracle parameters.  Asynchronous timer and promise bookkeeping is made explicit as
ghost state (`timerArmed`, `resolvedWith`, `timedOut`) recording, for each queued
ticket, whether its `setTimeout` handle is still armed and how its promise was
settled.
-/

namespace PdfService

abbrev Ctx := Nat

/-- A JavaScript `Error` object as thrown by the service, with the diagnostic
fields the code attaches (`status`, `reason`, byte counts, KB counts). -/
structure JsError where
  msg : String := ""
  status : Option Nat := none
  reason : Option String := none
  html_bytes : Option Nat := none
  html_minified_bytes : Option Nat := none
  pdf_bytes : Option Nat := none
  limit_bytes : Option Int := none
  html_kb : Option Rat := none
  limit_kb : Option Rat := none
deriving DecidableEq

/-- The error thrown by `acquireContextWait` when the wait queue is full
(`PDF service busy – queue full`, HTTP 503). -/
def queueFullError : JsError :=
  { msg := "PDF service busy - queue full", status := some 503 }

/-- The error a queued ticket is rejected with when its wait timer fires
(`PDF service busy – timeout`, HTTP 503). -/
def queueTimeoutError : JsError :=
  { msg := "PDF service busy - timeout", status := some 503 }

/-- Pool and queue state of `src/index.js`: the `contexts` array, the `busy` set
(as a list used only through membership), the FIFO `waitQueue` of ticket ids, plus
ghost fields: `timerArmed` lists tickets whose `setTimeout` handle has neither fired
nor been cleared, `resolvedWith` records tickets whose promise was resolved with a
context, `timedOut` records tickets rejected by their timer together with the error. -/
structure PoolState where
  contexts : List Ctx
  busy : List Ctx
  waitQueue : List Nat
  timerArmed : List Nat
  resolvedWith : List (Nat × Ctx)
  timedOut : List (Nat × JsError)
deriving DecidableEq

/-- `_acquireImmediate` of `src/index.js`: scan `contexts` in order and mark the
first context not in `busy` as busy; return `none` when all are busy. -/
def acquireImmediate (st : PoolState) : Option Ctx × PoolState :=
  match st.contexts.find? (fun c => decide (c ∉ st.busy)) with
  | some c => (some c, { st with busy := c :: st.busy })
  | none => (none, st)

/-- `_release` of `src/index.js`: if the context is busy, free it; if the wait queue
is non-empty, pop the head ticket and try to grab a free context for it.  On success
the ticket's timer is cleared and its promise resolved with that context
(`clearTimeout` followed by `setImmediate(() => ticket.resolve(free))`); otherwise
the popped ticket is reinserted at the head of the queue (`waitQueue.unshift`). -/
def release (c : Ctx) (st : PoolState) : PoolState :=
  if c ∈ st.busy then
    let st1 := { st with busy := st.busy.erase c }
    match st1.waitQueue with
    | [] => st1
    | t :: rest =>
      let st2 := { st1 with waitQueue := rest }
      match acquireImmediate st2 with
      | (some free, st3) =>
        { st3 with timerArmed := st3.timerArmed.erase t
                   resolvedWith := (t, free) :: st3.resolvedWith }
      | (none, st3) => { st3 with waitQueue := t :: st3.waitQueue }
  else st

/-- Result of the synchronous part of `acquireContextWait`: an immediately acquired
context, an immediate `queue full` failure, or a freshly enqueued ticket whose
promise the caller now awaits. -/
inductive AcquireResult where
  | immediate (c : Ctx)
  | busyFull (e : JsError)
  | enqueued (t : Nat)
deriving DecidableEq

/-- `acquireContextWait` of `src/index.js` (its synchronous prefix): first try
`_acquireImmediate`; if all contexts are busy and the queue already holds at least
`QUEUE_MAX` tickets, throw the 503 `queue full` error creating no ticket; otherwise
create a ticket with an armed wait timer and push it at the tail of the queue. -/
def acquireContextWait (queueMax tid : Nat) (st : PoolState) : AcquireResult × PoolState :=
  match acquireImmediate st with
  | (some c, st1) => (.immediate c, st1)
  | (none, st1) =>
    if queueMax ≤ st1.waitQueue.length then
      (.busyFull queueFullError, st1)
    else
      (.enqueued tid, { st1 with waitQueue := st1.waitQueue ++ [tid]
                                 timerArmed := st1.timerArmed ++ [tid] })

/-- The wait-timer callback of `acquireContextWait`: it can only run while the timer
is still armed (`clearTimeout` prevents a cleared handle from firing); it removes the
ticket from the queue (`indexOf`/`splice`, i.e. erase the first occurrence) and
rejects the ticket's promise with the 503 timeout error. -/
def timerFire (t : Nat) (st : PoolState) : PoolState :=
  if t ∈ st.timerArmed then
    { st with timerArmed := st.timerArmed.erase t
              waitQueue := st.waitQueue.erase t
              timedOut := (t, queueTimeoutError) :: st.timedOut }
  else st

/-- Atomic tasks of the single-threaded event loop that touch the pool state:
a call of `_release`, a wait-timer firing, the synchronous part of a new
`acquireContextWait` call (with a fresh ticket id), and the browser
`disconnected` handler (which clears `contexts` and `busy`). -/
inductive Event where
  | release (c : Ctx)
  | timer (t : Nat)
  | acquire (tid : Nat)
  | disconnect
deriving DecidableEq

/-- Effect of one event-loop task on the pool state. -/
def stepEv (queueMax : Nat) : Event → PoolState → PoolState
  | .release c, st => release c st
  | .timer t, st => timerFire t st
  | .acquire tid, st => (acquireContextWait queueMax tid st).2
  | .disconnect, st => { st with contexts := [], busy := [] }

/-- All ticket ids the state has ever seen, used to express freshness of the
ticket created by a new `acquireContextWait` call. -/
def ticketIds (st : PoolState) : List Nat :=
  st.waitQueue ++ st.timerArmed ++ st.resolvedWith.map Prod.fst ++ st.timedOut.map Prod.fst

/-- An event is valid in a state when, for an `acquire`, its ticket id is fresh
(each `acquireContextWait` call creates a brand-new ticket object and promise). -/
def validEv : Event → PoolState → Bool
  | .acquire tid, st => decide (tid ∉ ticketIds st)
  | _, _ => true

/-- A whole event list is valid from a state when each event is valid in the state
reached by its predecessors. -/
def validFrom (queueMax : Nat) (st : PoolState) : List Event → Bool
  | [] => true
  | e :: evs => validEv e st && validFrom queueMax (stepEv queueMax e st) evs

/-- Run a list of event-loop tasks. -/
def runEvents (queueMax : Nat) (st : PoolState) (evs : List Event) : PoolState :=
  evs.foldl (fun s e => stepEv queueMax e s) st

/-- The state right after `initPool`: `BROWSER_POOL_SIZE` contexts, nothing busy,
empty wait queue. -/
def initState (n : Nat) : PoolState :=
  { contexts := List.range n, busy := [], waitQueue := [],
    timerArmed := [], resolvedWith := [], timedOut := [] }

/-- Ticket bookkeeping invariant maintained by the event loop: the queue and the
armed-timer list have no duplicates, no ticket is resolved twice, every queued
ticket has an armed timer and is unsettled, every resolved ticket has a cancelled
timer and never timed out, and every timed-out ticket carries the 503 timeout
error, has a spent timer and sits in the queue no longer. -/
def Inv7 (st : PoolState) : Prop :=
  st.waitQueue.Nodup ∧
  st.timerArmed.Nodup ∧
  (st.resolvedWith.map Prod.fst).Nodup ∧
  (∀ t ∈ st.waitQueue,
      t ∈ st.timerArmed ∧ t ∉ st.resolvedWith.map Prod.fst ∧ t ∉ st.timedOut.map Prod.fst) ∧
  (∀ t ∈ st.resolvedWith.map Prod.fst, t ∉ st.timerArmed ∧ t ∉ st.timedOut.map Prod.fst) ∧
  (∀ p ∈ st.timedOut, p.2 = queueTimeoutError ∧ p.1 ∉ st.timerArmed ∧ p.1 ∉ st.waitQueue)

instance (st : PoolState) : Decidable (Inv7 st) := by
  unfold Inv7; infer_instance

/-! ## Degradation pipeline (`renderWithOptions`, `renderToBufferAdaptive`) -/

/-- One rung of the degradation pipeline: the per-pass options
`{ printBackground, blockAssets, scale }` of `renderToBufferAdaptive`. -/
structure PassOpts where
  printBackground : Bool
  blockAssets : Bool
  scale : Rat
deriving DecidableEq

/-- `PDF_SCALE` (default `0.94`). -/
def PDF_SCALE : Rat := 94 / 100

/-- `PDF_PRINT_BG` (default off). -/
def PDF_PRINT_BG : Bool := false

/-- The fixed ordered list of the four degradation passes of
`renderToBufferAdaptive`: default optimized, no background, reduced scale,
low-fi mode with asset blocking. -/
def passes : List PassOpts :=
  [ { printBackground := PDF_PRINT_BG, blockAssets := false, scale := PDF_SCALE },
    { printBackground := false, blockAssets := false, scale := PDF_SCALE },
    { printBackground := false, blockAssets := false, scale := 90 / 100 },
    { printBackground := false, blockAssets := true, scale := 85 / 100 } ]

/-- Outcome of the browser-side part of one render attempt (the external Puppeteer
capability): the rendered PDF's byte length, an arbitrary renderer error
(navigation failure, crash, ...), or a render timeout (Puppeteer's `TimeoutError`,
which carries no `status` field). -/
inductive BodyOutcome where
  | success (pdfLen : Nat)
  | rendererError (e : JsError)
  | timeout
deriving DecidableEq

/-- The 413 error built by `renderWithOptions` when the rendered PDF exceeds the
effective limit, carrying the diagnostics the code attaches. -/
def sizeLimitError (pdfLen : Nat) (limit : Int) (htmlBytes safeHtmlBytes : Nat) : JsError :=
  { msg := "PDF larger than limit", status := some 413,
    html_bytes := some htmlBytes, html_minified_bytes := some safeHtmlBytes,
    pdf_bytes := some pdfLen, limit_bytes := some limit }

/-- The error corresponding to Puppeteer's render `TimeoutError` (no `status`,
so `handleRender` maps it to 500). -/
def renderTimeoutError : JsError := { msg := "Navigation timeout exceeded" }

/-- Value thrown by `throw last` when no pass ran (unreachable: `passes` has four
entries), modelling JavaScript's `throw undefined`. -/
def undefinedThrown : JsError := { msg := "undefined" }

/-- What one `renderWithOptions` call returns or throws, given the browser outcome:
on success the size check compares the PDF length with `effectiveMaxBytes` and
throws the 413 size error when it is exceeded; renderer errors and timeouts are
rethrown unchanged (lines 862-872 of `src/index.js`). -/
def renderAttempt (outcome : BodyOutcome) (limit : Int) (htmlBytes safeHtmlBytes : Nat) :
    Except JsError Nat :=
  match outcome with
  | .success n => if limit < (n : Int) then
      .error (sizeLimitError n limit htmlBytes safeHtmlBytes)
    else .ok n
  | .rendererError e => .error e
  | .timeout => .error renderTimeoutError

/-- The `for (const p of passes)` loop of `renderToBufferAdaptive`, carrying `last`:
return on success, continue to the next pass when the attempt threw a 413, rethrow
any other error at once, and `throw last` when the passes are exhausted.  The
second component counts the attempts actually made.  The render outcome of attempt
`i` is given by `render i`. -/
def adaptiveGo (render : Nat → Except JsError Nat) :
    List PassOpts → Nat → Option JsError → Except JsError Nat × Nat
  | [], _, last => (.error (last.getD undefinedThrown), 0)
  | _p :: rest, i, _ =>
    match render i with
    | .ok pdf => (.ok pdf, 1)
    | .error e =>
      if e.status = some 413 then
        let r := adaptiveGo render rest (i + 1) (some e)
        (r.1, r.2 + 1)
      else (.error e, 1)

/-- `renderToBufferAdaptive` of `src/index.js`: run the degradation passes in order
against the render oracle, with the per-pass size check of `renderWithOptions`.
Returns the result together with the number of attempts (= contexts acquired). -/
def renderToBufferAdaptive (oracle : Nat → BodyOutcome) (limit : Int)
    (htmlBytes safeHtmlBytes : Nat) : Except JsError Nat × Nat :=
  adaptiveGo (fun i => renderAttempt (oracle i) limit htmlBytes safeHtmlBytes) passes 0 none

/-! ## Render orchestrator (`handleRender`, `checkAndSlimPayload`) -/

/-- The `clamp` helper of `src/index.js`: `Math.max(min, Math.min(max, n))`. -/
def clamp (n minv maxv : Int) : Int := max minv (min maxv n)

/-- The size-policy and payload-limit configuration of `src/index.js`, with the
documented environment defaults: `PDF_MAX_BYTES_DEFAULT = 20 MB`,
`PDF_MAX_BYTES_CAP = 32 MB`, `MIN_PDF_BYTES = 1 MB`, `PDF_MAX_HTML_KB = 1024`
(hence `HTML_MAX_BYTES = 1024 KB`), slim mode off, `QUEUE_MAX = 24`. -/
structure Config where
  pdfMaxDefault : Int := 20 * 1024 * 1024
  pdfMaxCap : Int := 32 * 1024 * 1024
  minPdfBytes : Int := 1024 * 1024
  htmlMaxKB : Nat := 1024
  htmlMaxBytes : Nat := 1024 * 1024
  slimModeEnabled : Bool := false
  queueMax : Nat := 24
deriving DecidableEq

/-- The configuration with every environment variable left at its default. -/
def defaultConfig : Config := {}

/-- A render request body, abstracted: `html` is `some b` when the `html` field is
a string of UTF-8 byte length `b` (and `none` when missing or not a string;
the empty string has length `0` and is falsy), `maxBytes` is `some m` when the
request carries a numeric `maxBytes`. -/
structure Request where
  html : Option Nat := none
  maxBytes : Option Int := none
deriving DecidableEq

/-- Result of `checkAndSlimPayload`: the byte length of the HTML handed on to
rendering, and whether slim mode rewrote it. -/
structure PayloadCheck where
  htmlBytes : Nat
  wasSlimmed : Bool
  originalKB : Rat
deriving DecidableEq

/-- The 413 error thrown by `checkAndSlimPayload` when the incoming HTML exceeds
`HTML_MAX_BYTES` and slim mode is disabled, with `reason = 'html_payload_too_large'`
and the KB diagnostics the code attaches. -/
def htmlPayloadError (cfg : Config) (incomingBytes : Nat) : JsError :=
  { msg := "HTML payload exceeds allowed limit", status := some 413,
    reason := some "html_payload_too_large",
    html_kb := some ((incomingBytes : Rat) / 1024), limit_kb := some (cfg.htmlMaxKB : Rat) }

/-- `checkAndSlimPayload` of `src/index.js`: measure the incoming HTML; if it
exceeds `HTML_MAX_BYTES`, either apply `slimHtml` when `PDF_SLIM_MODE` is enabled
(proceeding even when the slimmed payload is still over the limit) or throw the
413 `html_payload_too_large` error.  `slimmedBytes` is the byte length
`Buffer.byteLength(slimHtml(html))` of the pure text transform. -/
def checkAndSlimPayload (cfg : Config) (htmlBytes slimmedBytes : Nat) :
    Except JsError PayloadCheck :=
  if cfg.htmlMaxBytes < htmlBytes then
    if cfg.slimModeEnabled then
      .ok { htmlBytes := slimmedBytes, wasSlimmed := true, originalKB := (htmlBytes : Rat) / 1024 }
    else .error (htmlPayloadError cfg htmlBytes)
  else .ok { htmlBytes := htmlBytes, wasSlimmed := false, originalKB := (htmlBytes : Rat) / 1024 }

/-- The HTTP response produced by `handleRender`, keeping the fields the claims
talk about: status, the JSON `reason` and diagnostics of the 413 branches, and on
success the PDF byte count and the `X-PDF-Limit` header value. -/
structure HttpResponse where
  status : Nat
  ok : Bool
  bytes : Option Nat := none
  limitHeader : Option Int := none
  reason : Option String := none
  html_kb : Option Rat := none
  limit_kb : Option Rat := none
  html_bytes : Option Nat := none
  pdf_bytes : Option Nat := none
  limit_bytes : Option Int := none
deriving DecidableEq

/-- The `catch` block of `handleRender`: status from `e.status || 500`; a 413 is
split by `e.reason` into the `html_payload_too_large` and `pdf_too_large` JSON
payloads with their respective diagnostics. -/
def errorResponse (e : JsError) : HttpResponse :=
  let status := e.status.getD 500
  if status = 413 then
    if e.reason = some "html_payload_too_large" then
      { status := status, ok := false, reason := some "html_payload_too_large",
        html_kb := e.html_kb, limit_kb := e.limit_kb }
    else
      { status := status, ok := false, reason := some "pdf_too_large",
        html_bytes := e.html_bytes, pdf_bytes := e.pdf_bytes, limit_bytes := e.limit_bytes }
  else { status := status, ok := false }

/-- `handleRender` of `src/index.js`: reject a missing or empty `html` with 400,
run `checkAndSlimPayload`, compute
`effectiveMaxBytes = clamp(maxBytes or PDF_MAX_DEFAULT, MIN_PDF_BYTES, PDF_MAX_CAP)`
and delegate to `renderToBufferAdaptive`; errors are mapped by the catch block.
`safeHtmlBytes` is the byte length of `sanitize(processedHtml)`.  The second
component is the number of render attempts made (each one acquires one browser
context). -/
def handleRender (cfg : Config) (req : Request) (oracle : Nat → BodyOutcome)
    (slimmedBytes safeHtmlBytes : Nat) : HttpResponse × Nat :=
  match req.html with
  | none => ({ status := 400, ok := false }, 0)
  | some hb =>
    if hb = 0 then ({ status := 400, ok := false }, 0)
    else
      match checkAndSlimPayload cfg hb slimmedBytes with
      | .error e => (errorResponse e, 0)
      | .ok payload =>
        let reqMax := req.maxBytes.getD cfg.pdfMaxDefault
        let effectiveMaxBytes := clamp reqMax cfg.minPdfBytes cfg.pdfMaxCap
        match renderToBufferAdaptive oracle effectiveMaxBytes payload.htmlBytes safeHtmlBytes with
        | (.ok n, attempts) =>
          ({ status := 200, ok := true, bytes := some n, limitHeader := some effectiveMaxBytes },
           attempts)
        | (.error e, attempts) => (errorResponse e, attempts)

/-- One full `renderWithOptions` body run with an already-acquired context `c`:
the result is what the `try` block returns or throws, and the `finally` block
calls `_release(ctx)` exactly once on every exit path. -/
structure RenderRun where
  result : Except JsError Nat
  state : PoolState
  releases : Nat

/-- The `try`/`finally` of `renderWithOptions` (lines 764-877): whatever the body
does — success, size-limit 413, renderer exception or render timeout — the
`finally` block releases the acquired context exactly once. -/
def renderWithCtx (c : Ctx) (outcome : BodyOutcome) (limit : Int)
    (htmlBytes safeHtmlBytes : Nat) (st : PoolState) : RenderRun :=
  { result := renderAttempt outcome limit htmlBytes safeHtmlBytes,
    state := release c st,
    releases := 1 }

/-! ## The reuse-limited context pool of `src/unnamed/part_002` -/

/-- Pool state of the `part_002` variant: the `pool` and `available` arrays
(`available` is used as a stack: `push`/`pop` at the end), the `uses` map from
context to its usage count, the number of pending `waiters`, and a counter
supplying fresh context identities. -/
structure CtxPool where
  pool : List Ctx
  available : List Ctx
  uses : List (Ctx × Nat)
  waiters : Nat
  nextId : Nat
deriving DecidableEq

/-- `uses.get(ctx) || 0`. -/
def usesGet (l : List (Ctx × Nat)) (c : Ctx) : Nat := (l.lookup c).getD 0

/-- `uses.set(ctx, n)` (map semantics: the new binding shadows any old one). -/
def usesSet (l : List (Ctx × Nat)) (c : Ctx) (n : Nat) : List (Ctx × Nat) :=
  (c, n) :: l.filter (fun p => p.1 != c)

/-- `uses.delete(ctx)`. -/
def usesDelete (l : List (Ctx × Nat)) (c : Ctx) : List (Ctx × Nat) :=
  l.filter (fun p => p.1 != c)

/-- `createContext` of `part_002`: create a fresh incognito context, initialise its
usage count to `0`, and push it onto both `pool` and `available`. -/
def createContext (st : CtxPool) : Ctx × CtxPool :=
  let c := st.nextId
  (c, { pool := st.pool ++ [c], available := st.available ++ [c],
        uses := usesSet st.uses c 0, waiters := st.waiters, nextId := c + 1 })

/-- Result of `acquireContext` of `part_002`: an idle context taken from
`available`, a freshly created context (lazy growth below `BROWSER_POOL_MAX`), or
a suspension on the `waiters` list. -/
inductive AcqRes where
  | taken (c : Ctx)
  | created (c : Ctx)
  | wouldWait
deriving DecidableEq

/-- `acquireContext` of `part_002`: pop an idle context from the end of
`available` if any; else, if the pool is below `BROWSER_POOL_MAX`, create and
return a new context immediately; else enqueue a waiter. -/
def acquireContext (maxPool : Nat) (st : CtxPool) : AcqRes × CtxPool :=
  match st.available.getLast? with
  | some c => (.taken c, { st with available := st.available.dropLast })
  | none =>
    if st.pool.length < maxPool then
      let r := createContext st
      (.created r.1, r.2)
    else (.wouldWait, { st with waiters := st.waiters + 1 })

/-- `releaseContext` of `part_002`: increment the context's usage count; when it
reaches `CONTEXT_REUSE_LIMIT`, close the context, remove it from the pool, delete
its usage entry and immediately create a replacement; otherwise return it to
`available`.  Either way, `_resolveNext()` wakes one waiter in the `finally`. -/
def releaseContext (reuseLimit : Nat) (st : CtxPool) (c : Ctx) : CtxPool :=
  let n := usesGet st.uses c + 1
  let st1 :=
    if reuseLimit ≤ n then
      let st0 := { st with pool := st.pool.erase c,
                           uses := usesDelete (usesSet st.uses c n) c }
      (createContext st0).2
    else
      { st with uses := usesSet st.uses c n, available := st.available ++ [c] }
  if 0 < st1.waiters then { st1 with waiters := st1.waiters - 1 } else st1

/-- The `for` loop of `warmupPool`, creating one context per iteration. -/
def warmupLoop : Nat → CtxPool → CtxPool
  | 0, st => st
  | k + 1, st => warmupLoop k (createContext st).2

/-- `warmupPool` of `part_002`: grow the pool to
`min(BROWSER_POOL_SIZE, BROWSER_POOL_MAX)` contexts. -/
def warmupPool (size maxPool : Nat) (st : CtxPool) : CtxPool :=
  warmupLoop (min size maxPool - st.pool.length) st

/-- Pool operations of the `part_002` variant, as event-loop tasks. -/
inductive PoolOp where
  | acquire
  | release (c : Ctx)
  | warm (size : Nat)
deriving DecidableEq

/-- Effect of one `part_002` pool operation. -/
def stepPool (reuseLimit maxPool : Nat) : PoolOp → CtxPool → CtxPool
  | .acquire, st => (acquireContext maxPool st).2
  | .release c, st => releaseContext reuseLimit st c
  | .warm size, st => warmupPool size maxPool st

/-- An operation is valid when a `release` concerns a context of the pool
(contexts are only released by render attempts that acquired them). -/
def validPoolOp : PoolOp → CtxPool → Bool
  | .release c, st => decide (c ∈ st.pool)
  | _, _ => true

/-- A whole operation list is valid from a state when each operation is valid in
the state reached by its predecessors. -/
def validPoolOps (reuseLimit maxPool : Nat) (st : CtxPool) : List PoolOp → Bool
  | [] => true
  | op :: ops =>
    validPoolOp op st && validPoolOps reuseLimit maxPool (stepPool reuseLimit maxPool op st) ops

/-- Run a list of `part_002` pool operations. -/
def runPoolOps (reuseLimit maxPool : Nat) (st : CtxPool) (ops : List PoolOp) : CtxPool :=
  ops.foldl (fun s op => stepPool reuseLimit maxPool op s) st

/-- The empty pool the `part_002` process starts from. -/
def initCtxPool : CtxPool :=
  { pool := [], available := [], uses := [], waiters := 0, nextId := 0 }

/-! ## Pipeline lemmas -/

/-- One-level unfolding of the degradation loop. -/
theorem adaptiveGo_cons (render : Nat → Except JsError Nat) (p : PassOpts)
    (rest : List PassOpts) (i0 : Nat) (last : Option JsError) :
    adaptiveGo render (p :: rest) i0 last =
      match render i0 with
      | .ok pdf => (.ok pdf, 1)
      | .error e =>
        if e.status = some 413 then
          ((adaptiveGo render rest (i0 + 1) (some e)).1,
           (adaptiveGo render rest (i0 + 1) (some e)).2 + 1)
        else (.error e, 1) := rfl

/-- If the first `i` attempts all throw 413 and attempt `i` succeeds, the loop
returns that result after exactly `i + 1` attempts. -/
theorem adaptiveGo_first_ok (render : Nat → Except JsError Nat) :
    ∀ (i : Nat) (ps : List PassOpts) (i0 : Nat) (last : Option JsError) (n : Nat),
      i < ps.length →
      (∀ j < i, ∃ e, render (i0 + j) = .error e ∧ e.status = some 413) →
      render (i0 + i) = .ok n →
      adaptiveGo render ps i0 last = (.ok n, i + 1) := by
  intro i
  induction i with
  | zero =>
    intro ps i0 last n hlen _ hok
    simp only [Nat.add_zero] at hok
    match ps with
    | p :: rest => rw [adaptiveGo_cons, hok]
  | succ i ih =>
    intro ps i0 last n hlen hearly hok
    match ps with
    | p :: rest =>
      obtain ⟨e, he, h413⟩ := hearly 0 (Nat.succ_pos i)
      simp only [Nat.add_zero] at he
      have hrec := ih rest (i0 + 1) (some e) n
        (by simpa using Nat.lt_of_succ_lt_succ hlen)
        (fun j hj => by
          have := hearly (j + 1) (Nat.succ_lt_succ hj)
          simpa [Nat.add_assoc, Nat.add_comm 1 j] using this)
        (by simpa [Nat.add_assoc, Nat.add_comm 1 i] using hok)
      rw [adaptiveGo_cons, he]
      simp [h413, hrec]

/-- If the first `i` attempts all throw 413 and attempt `i` throws an error whose
status is not 413, the loop rethrows exactly that error after `i + 1` attempts. -/
theorem adaptiveGo_first_fatal (render : Nat → Except JsError Nat) :
    ∀ (i : Nat) (ps : List PassOpts) (i0 : Nat) (last : Option JsError) (e : JsError),
      i < ps.length →
      (∀ j < i, ∃ e', render (i0 + j) = .error e' ∧ e'.status = some 413) →
      render (i0 + i) = .error e → e.status ≠ some 413 →
      adaptiveGo render ps i0 last = (.error e, i + 1) := by
  intro i
  induction i with
  | zero =>
    intro ps i0 last e hlen _ herr hne
    match ps with
    | p :: rest =>
      simp only [Nat.add_zero] at herr
      rw [adaptiveGo_cons, herr]
      simp [hne]
  | succ i ih =>
    intro ps i0 last e hlen hearly herr hne
    match ps with
    | p :: rest =>
      obtain ⟨e', he', h413⟩ := hearly 0 (Nat.succ_pos i)
      simp only [Nat.add_zero] at he'
      have hrec := ih rest (i0 + 1) (some e') e
        (by simpa using Nat.lt_of_succ_lt_succ hlen)
        (fun j hj => by
          have := hearly (j + 1) (Nat.succ_lt_succ hj)
          simpa [Nat.add_assoc, Nat.add_comm 1 j] using this)
        (by simpa [Nat.add_assoc, Nat.add_comm 1 i] using herr) hne
      rw [adaptiveGo_cons, he']
      simp [h413, hrec]

/-- If every attempt throws 413, the loop finally rethrows the error of the last
attempt, after attempting every pass. -/
theorem adaptiveGo_all413 (render : Nat → Except JsError Nat) (errs : Nat → JsError) :
    ∀ (ps : List PassOpts) (p : PassOpts) (i0 : Nat) (last : Option JsError),
      (∀ j < (p :: ps).length, render (i0 + j) = .error (errs (i0 + j)) ∧
        (errs (i0 + j)).status = some 413) →
      adaptiveGo render (p :: ps) i0 last =
        (.error (errs (i0 + ps.length)), ps.length + 1) := by
  intro ps
  induction ps with
  | nil =>
    intro p i0 last hall
    obtain ⟨he, h413⟩ := hall 0 (by simp)
    simp only [Nat.add_zero] at he h413
    rw [adaptiveGo_cons, he]
    simp [adaptiveGo, h413]
  | cons q rest ih =>
    intro p i0 last hall
    obtain ⟨he, h413⟩ := hall 0 (by simp)
    simp only [Nat.add_zero] at he h413
    have hrec := ih q (i0 + 1) (some (errs i0))
      (fun j hj => by
        have := hall (j + 1) (by simpa using Nat.succ_lt_succ hj)
        simpa [Nat.add_assoc, Nat.add_comm 1 j] using this)
    simp only [List.length_cons] at hrec ⊢
    rw [show i0 + (rest.length + 1) = i0 + 1 + rest.length by omega]
    rw [adaptiveGo_cons, he]
    simp [h413, hrec]

/-- When a pass's browser run produces a PDF over the limit, `renderWithOptions`
throws the 413 size error. -/
theorem renderAttempt_over (limit : Int) (hb sb m : Nat) (hover : limit < (m : Int)) :
    renderAttempt (.success m) limit hb sb = .error (sizeLimitError m limit hb sb) := by
  simp [renderAttempt, hover]

/-- When a pass's browser run produces a PDF within the limit, `renderWithOptions`
returns it. -/
theorem renderAttempt_fits (limit : Int) (hb sb n : Nat) (hle : (n : Int) ≤ limit) :
    renderAttempt (.success n) limit hb sb = .ok n := by
  simp [renderAttempt, not_lt.mpr hle]

/-! ## Claim theorems: degradation pipeline and orchestrator -/

/-- C3: for every request the size ceiling applied to each rendered output is
`effectiveLimit = clamp(requestedLimit, MIN_PDF_BYTES, PDF_MAX_CAP)` — with
`PDF_MAX_DEFAULT` substituted when the request supplies no numeric `maxBytes` —
and whenever a profile produces output within that limit, `handleRender` returns
it immediately after exactly the attempts made so far, trying no cheaper
profile. -/
theorem C3_effective_limit_first_fit (cfg : Config) (req : Request)
    (oracle : Nat → BodyOutcome) (sb shb hb i n : Nat)
    (hhtml : req.html = some hb) (hpos : 0 < hb) (hsz : hb ≤ cfg.htmlMaxBytes)
    (hi : i < passes.length)
    (hearly : ∀ j < i, ∃ m, oracle j = .success m ∧
        clamp (req.maxBytes.getD cfg.pdfMaxDefault) cfg.minPdfBytes cfg.pdfMaxCap < (m : Int))
    (hfit : oracle i = .success n)
    (hle : (n : Int) ≤ clamp (req.maxBytes.getD cfg.pdfMaxDefault) cfg.minPdfBytes cfg.pdfMaxCap) :
    handleRender cfg req oracle sb shb =
      ({ status := 200, ok := true, bytes := some n,
         limitHeader := some (clamp (req.maxBytes.getD cfg.pdfMaxDefault)
           cfg.minPdfBytes cfg.pdfMaxCap) }, i + 1) := by
  have hnot : ¬ cfg.htmlMaxBytes < hb := not_lt.mpr hsz
  have hpipe : renderToBufferAdaptive oracle
      (clamp (req.maxBytes.getD cfg.pdfMaxDefault) cfg.minPdfBytes cfg.pdfMaxCap) hb shb
      = (.ok n, i + 1) := by
    unfold renderToBufferAdaptive
    refine adaptiveGo_first_ok _ i passes 0 none n hi (fun j hj => ?_) ?_
    · obtain ⟨m, hm, hover⟩ := hearly j hj
      refine ⟨sizeLimitError m (clamp (req.maxBytes.getD cfg.pdfMaxDefault)
        cfg.minPdfBytes cfg.pdfMaxCap) hb shb, ?_, rfl⟩
      simp only [Nat.zero_add, hm]
      exact renderAttempt_over _ hb shb m hover
    · simp only [Nat.zero_add, hfit]
      exact renderAttempt_fits _ hb shb n hle
  have hb0 : ¬ hb = 0 := by omega
  simp [handleRender, hhtml, hb0, checkAndSlimPayload, hnot, hpipe]

/-- Witness for C3: with the default configuration and no requested limit, the
first pass renders 30 MB (over the 20 MB default limit), the second fits and is
returned at once after two attempts. -/
theorem C3_effective_limit_first_fit_witness :
    handleRender defaultConfig { html := some 100, maxBytes := none }
        (fun j => if j = 0 then .success (30 * 1024 * 1024) else .success 1000) 80 80 =
      ({ status := 200, ok := true, bytes := some 1000,
         limitHeader := some (clamp ((none : Option Int).getD defaultConfig.pdfMaxDefault)
           defaultConfig.minPdfBytes defaultConfig.pdfMaxCap) }, 2) :=
  C3_effective_limit_first_fit defaultConfig _ _ 80 80 100 1 1000 rfl (by decide) (by decide)
    (by decide)
    (fun j hj => by
      have hj0 : j = 0 := by omega
      subst hj0
      exact ⟨30 * 1024 * 1024, rfl, by decide⟩)
    rfl (by decide)

/-- C4: if a render attempt fails with any error other than the 413 size-limit
failure, the degradation pipeline aborts at once, propagating exactly that error
to the caller and attempting none of the remaining profiles. -/
theorem C4_renderer_failure_aborts (oracle : Nat → BodyOutcome) (limit : Int)
    (hb sb : Nat) (i : Nat) (e : JsError)
    (hi : i < passes.length)
    (hearly : ∀ j < i, ∃ e', renderAttempt (oracle j) limit hb sb = .error e' ∧
        e'.status = some 413)
    (hfail : renderAttempt (oracle i) limit hb sb = .error e)
    (hne : e.status ≠ some 413) :
    renderToBufferAdaptive oracle limit hb sb = (.error e, i + 1) := by
  unfold renderToBufferAdaptive
  refine adaptiveGo_first_fatal _ i passes 0 none e hi
    (fun j hj => by simpa using hearly j hj) (by simpa using hfail) hne

/-- Witness for C4: a navigation failure on the very first pass aborts the
pipeline after one attempt with exactly that error. -/
theorem C4_renderer_failure_aborts_witness :
    renderToBufferAdaptive (fun _ => .rendererError { msg := "net::ERR_FAILED" })
        (20 * 1024 * 1024) 5 3 =
      (.error { msg := "net::ERR_FAILED" }, 1) :=
  C4_renderer_failure_aborts _ (20 * 1024 * 1024) 5 3 0 { msg := "net::ERR_FAILED" }
    (by decide)
    (fun j hj => absurd hj (Nat.not_lt_zero j))
    rfl (by decide)

/-- C5: when every degradation profile produces a PDF over the effective limit,
the pipeline attempts all four passes and rethrows the 413 SizeExceeded error of
the last attempt, carrying that attempt's PDF byte count, the limit bytes, and
the HTML byte sizes. -/
theorem C5_size_exceeded_last_diagnostics (oracle : Nat → BodyOutcome) (limit : Int)
    (hb sb : Nat) (ns : Nat → Nat)
    (hall : ∀ j < passes.length, oracle j = .success (ns j) ∧ limit < ((ns j : Nat) : Int)) :
    renderToBufferAdaptive oracle limit hb sb =
      (.error (sizeLimitError (ns 3) limit hb sb), 4) ∧
      sizeLimitError (ns 3) limit hb sb =
        { msg := "PDF larger than limit", status := some 413,
          html_bytes := some hb, html_minified_bytes := some sb,
          pdf_bytes := some (ns 3), limit_bytes := some limit } := by
  refine ⟨?_, rfl⟩
  unfold renderToBufferAdaptive
  have hps : passes =
      { printBackground := PDF_PRINT_BG, blockAssets := false, scale := PDF_SCALE } ::
        [ { printBackground := false, blockAssets := false, scale := PDF_SCALE },
          { printBackground := false, blockAssets := false, scale := 90 / 100 },
          { printBackground := false, blockAssets := true, scale := 85 / 100 } ] := rfl
  have h := adaptiveGo_all413 (fun i => renderAttempt (oracle i) limit hb sb)
    (fun j => sizeLimitError (ns j) limit hb sb)
    [ { printBackground := false, blockAssets := false, scale := PDF_SCALE },
      { printBackground := false, blockAssets := false, scale := 90 / 100 },
      { printBackground := false, blockAssets := true, scale := 85 / 100 } ]
    { printBackground := PDF_PRINT_BG, blockAssets := false, scale := PDF_SCALE } 0 none
    (fun j hj => by
      obtain ⟨hm, hover⟩ := hall j (by simpa [hps] using hj)
      simp only [Nat.zero_add, hm]
      exact ⟨renderAttempt_over limit hb sb (ns j) hover, rfl⟩)
  rw [hps]
  simpa using h

/-- Witness for C5: every pass renders 40 MB against a 20 MB limit; the pipeline
fails with the fourth attempt's 413 error. -/
theorem C5_size_exceeded_last_diagnostics_witness :
    renderToBufferAdaptive (fun j => .success (40 * 1024 * 1024 + j)) (20 * 1024 * 1024) 5 3 =
      (.error (sizeLimitError (40 * 1024 * 1024 + 3) (20 * 1024 * 1024) 5 3), 4) ∧
      sizeLimitError (40 * 1024 * 1024 + 3) (20 * 1024 * 1024) 5 3 =
        { msg := "PDF larger than limit", status := some 413,
          html_bytes := some 5, html_minified_bytes := some 3,
          pdf_bytes := some (40 * 1024 * 1024 + 3), limit_bytes := some (20 * 1024 * 1024) } :=
  C5_size_exceeded_last_diagnostics _ (20 * 1024 * 1024) 5 3 (fun j => 40 * 1024 * 1024 + j)
    (fun j hj =>
      ⟨rfl, by show (20 * 1024 * 1024 : Int) < ((40 * 1024 * 1024 + j : Nat) : Int); omega⟩)

/-! ## Claim theorems: admission queue and release -/

/-- A one-context pool whose only context is busy and whose queue holds one
ticket, used as a concrete witness state. -/
def demoBusyQueued : PoolState :=
  { contexts := [0], busy := [0], waitQueue := [5],
    timerArmed := [5], resolvedWith := [], timedOut := [] }

/-- A one-context pool whose only context is busy and whose queue is empty, used
as a concrete witness state. -/
def demoBusyIdleQueue : PoolState :=
  { contexts := [0], busy := [0], waitQueue := [],
    timerArmed := [], resolvedWith := [], timedOut := [] }

/-- C6: whenever `acquireContextWait` finds no idle context and the admission
queue already holds at least `QUEUE_MAX` tickets, the call fails immediately with
the 503 Busy (`queue full`) error and the state is returned unchanged — no ticket
object is created or enqueued.  In particular, with `QUEUE_MAX = 0` every acquire
against a saturated pool fails immediately. -/
theorem C6_queue_full_busy (queueMax tid : Nat) (st : PoolState)
    (hidle : ∀ c ∈ st.contexts, c ∈ st.busy)
    (hfull : queueMax ≤ st.waitQueue.length) :
    acquireContextWait queueMax tid st = (.busyFull queueFullError, st) ∧
      queueFullError.status = some 503 := by
  have hfind : st.contexts.find? (fun c => !decide (c ∈ st.busy)) = none := by
    rw [List.find?_eq_none]
    intro c hc
    simpa using hidle c hc
  exact ⟨by simp [acquireContextWait, acquireImmediate, hfind, hfull], rfl⟩

/-- Witness for C6 at a saturated one-context pool with `QUEUE_MAX = 0`: the
request fails at once with the 503 Busy error and the state is untouched. -/
theorem C6_queue_full_busy_witness :
    acquireContextWait 0 7 demoBusyIdleQueue = (.busyFull queueFullError, demoBusyIdleQueue) ∧
      queueFullError.status = some 503 :=
  C6_queue_full_busy 0 7 demoBusyIdleQueue (by decide) (Nat.zero_le _)

/-- C8: on `_release` the freed worker is handed to the head ticket of the wait
queue (the queue becoming its tail); if `_acquireImmediate` found no context for
it — the freed worker was taken before hand-off completed — the popped ticket is
reinserted at the head, not the tail, leaving the queue exactly as it was, so a
ticket that lost the race never falls behind later arrivals. -/
theorem C8_fifo_head_reinsert (c : Ctx) (st : PoolState) (t : Nat) (rest : List Nat)
    (hb : c ∈ st.busy) (hq : st.waitQueue = t :: rest) :
    (∃ free, (release c st).resolvedWith = (t, free) :: st.resolvedWith ∧
        (release c st).waitQueue = rest) ∨
      ((release c st).waitQueue = t :: rest ∧
        (release c st).resolvedWith = st.resolvedWith) := by
  unfold release
  rw [if_pos hb]
  simp only [hq, acquireImmediate]
  rcases hfind : st.contexts.find? (fun x => decide (x ∉ st.busy.erase c)) with _ | free
  · right
    simp [hfind]
  · left
    exact ⟨free, by simp [hfind], by simp [hfind]⟩

/-- Witness for C8: releasing the only (busy) context of a pool with one waiting
ticket hands that context to the ticket and empties the queue. -/
theorem C8_fifo_head_reinsert_witness :
    (∃ free, (release 0 demoBusyQueued).resolvedWith = (5, free) :: demoBusyQueued.resolvedWith ∧
        (release 0 demoBusyQueued).waitQueue = []) ∨
      ((release 0 demoBusyQueued).waitQueue = [5] ∧
        (release 0 demoBusyQueued).resolvedWith = demoBusyQueued.resolvedWith) :=
  C8_fifo_head_reinsert 0 demoBusyQueued 5 [] (by decide) rfl

/-- C9: a render attempt that acquired a context releases it exactly once on
every exit path — success, size-limit 413, renderer exception or timeout — and
afterwards the context is either no longer marked busy or was handed over, by
that very release, to the head ticket of the wait queue. -/
theorem C9_release_exactly_once (c : Ctx) (outcome : BodyOutcome) (limit : Int)
    (hb sb : Nat) (st : PoolState) (hmem : c ∈ st.busy) (hnd : st.busy.Nodup) :
    (renderWithCtx c outcome limit hb sb st).releases = 1 ∧
      (c ∉ (renderWithCtx c outcome limit hb sb st).state.busy ∨
        ∃ t rest, st.waitQueue = t :: rest ∧
          (renderWithCtx c outcome limit hb sb st).state.resolvedWith =
            (t, c) :: st.resolvedWith) := by
  refine ⟨rfl, ?_⟩
  show c ∉ (release c st).busy ∨ _
  unfold release
  rw [if_pos hmem]
  rcases hwq : st.waitQueue with _ | ⟨t, rest⟩
  · simp only [hwq]
    exact Or.inl (hnd.not_mem_erase)
  · simp only [hwq, acquireImmediate]
    rcases hfind : st.contexts.find? (fun x => decide (x ∉ st.busy.erase c)) with _ | free
    · simp only [hfind]
      exact Or.inl (hnd.not_mem_erase)
    · simp only [hfind]
      by_cases hfc : free = c
      · subst hfc
        refine Or.inr ⟨t, rest, rfl, ?_⟩
        show (release free st).resolvedWith = (t, free) :: st.resolvedWith
        unfold release
        rw [if_pos hmem]
        simp only [hwq, acquireImmediate, hfind]
      · refine Or.inl ?_
        simp only [List.mem_cons]
        rintro (h | h)
        · exact hfc h.symm
        · exact hnd.not_mem_erase h

/-- Witness for C9: a timed-out attempt on the only context of a pool with an
empty queue releases it once and leaves it idle. -/
theorem C9_release_exactly_once_witness :
    (renderWithCtx 0 .timeout (20 * 1024 * 1024) 5 3 demoBusyIdleQueue).releases = 1 ∧
      (0 ∉ (renderWithCtx 0 .timeout (20 * 1024 * 1024) 5 3 demoBusyIdleQueue).state.busy ∨
        ∃ t rest, demoBusyIdleQueue.waitQueue = t :: rest ∧
          (renderWithCtx 0 .timeout (20 * 1024 * 1024) 5 3 demoBusyIdleQueue).state.resolvedWith =
            (t, 0) :: demoBusyIdleQueue.resolvedWith) :=
  C9_release_exactly_once 0 .timeout (20 * 1024 * 1024) 5 3 demoBusyIdleQueue
    (by decide) (by decide)

/-- C10: a render request whose `html` exceeds `HTML_MAX_BYTES` in UTF-8 length
while slim mode is disabled fails with a 413 carrying
`reason = 'html_payload_too_large'` before any render attempt — zero browser
contexts are acquired; by default `HTML_MAX_BYTES` is 1024 KB and slim mode is
off. -/
theorem C10_html_payload_ceiling (cfg : Config) (req : Request)
    (oracle : Nat → BodyOutcome) (sb shb hb : Nat)
    (hhtml : req.html = some hb) (hslim : cfg.slimModeEnabled = false)
    (hover : cfg.htmlMaxBytes < hb) :
    handleRender cfg req oracle sb shb =
      ({ status := 413, ok := false, reason := some "html_payload_too_large",
         html_kb := some ((hb : Rat) / 1024), limit_kb := some ((cfg.htmlMaxKB : Rat)) }, 0) ∧
      defaultConfig.htmlMaxBytes = 1024 * 1024 ∧
      defaultConfig.slimModeEnabled = false := by
  refine ⟨?_, rfl, rfl⟩
  have hb0 : ¬ hb = 0 := by omega
  simp [handleRender, hhtml, hb0, checkAndSlimPayload, hover, hslim, errorResponse,
    htmlPayloadError]

/-- Witness for C10: a 2 MB HTML payload against the default 1024 KB ceiling is
rejected with 413 / `html_payload_too_large` and no context is acquired. -/
theorem C10_html_payload_ceiling_witness :
    handleRender defaultConfig { html := some (2 * 1024 * 1024), maxBytes := none }
        (fun _ => .success 1000) 9 9 =
      ({ status := 413, ok := false, reason := some "html_payload_too_large",
         html_kb := some (((2 * 1024 * 1024 : Nat) : Rat) / 1024),
         limit_kb := some ((defaultConfig.htmlMaxKB : Rat)) }, 0) ∧
      defaultConfig.htmlMaxBytes = 1024 * 1024 ∧
      defaultConfig.slimModeEnabled = false :=
  C10_html_payload_ceiling defaultConfig _ _ 9 9 (2 * 1024 * 1024) rfl rfl (by decide)

/-! ## Ticket invariant preservation (claim C7) -/

/-- A timer firing preserves the ticket invariant: it only ever settles a ticket
whose timer is still armed, removing it from the queue and recording the 503
timeout rejection. -/
theorem inv7_timerFire (t : Nat) (st : PoolState) (h : Inv7 st) : Inv7 (timerFire t st) := by
  unfold timerFire
  by_cases ha : t ∈ st.timerArmed
  · rw [if_pos ha]
    obtain ⟨hqN, haN, hrN, hq, hr, hto⟩ := h
    refine ⟨hqN.erase t, haN.erase t, hrN, ?_, ?_, ?_⟩
    · intro x hx
      obtain ⟨hxt, hxq⟩ := (hqN.mem_erase_iff).mp hx
      obtain ⟨hxa, hxr, hxd⟩ := hq x hxq
      refine ⟨(List.mem_erase_of_ne hxt).mpr hxa, hxr, ?_⟩
      simp only [List.map_cons, List.mem_cons, not_or]
      exact ⟨hxt, hxd⟩
    · intro x hx
      obtain ⟨hxa, hxd⟩ := hr x hx
      refine ⟨fun hc => hxa (List.mem_of_mem_erase hc), ?_⟩
      simp only [List.map_cons, List.mem_cons, not_or]
      refine ⟨?_, hxd⟩
      rintro rfl
      exact hxa ha
    · intro p hp
      simp only [List.mem_cons] at hp
      rcases hp with rfl | hp
      · exact ⟨rfl, haN.not_mem_erase, fun hc => ((hqN.mem_erase_iff).mp hc).1 rfl⟩
      · obtain ⟨he, hpa, hpq⟩ := hto p hp
        exact ⟨he, fun hc => hpa (List.mem_of_mem_erase hc),
          fun hc => hpq (List.mem_of_mem_erase hc)⟩
  · rw [if_neg ha]
    exact h

/-- `_release` on a busy context with an empty queue just frees the context. -/
theorem release_nil_eq (c : Ctx) (st : PoolState) (hb : c ∈ st.busy)
    (hwq : st.waitQueue = []) :
    release c st = { st with busy := st.busy.erase c } := by
  unfold release
  rw [if_pos hb]
  simp only [hwq]

/-- `_release` on a busy context with a waiting head ticket, when
`_acquireImmediate` finds a free context: the ticket is popped, its timer
cleared, and its promise resolved with that context. -/
theorem release_handoff_eq (c : Ctx) (st : PoolState) (t : Nat) (rest : List Nat)
    (free : Ctx) (hb : c ∈ st.busy) (hwq : st.waitQueue = t :: rest)
    (hfind : st.contexts.find? (fun x => decide (x ∉ st.busy.erase c)) = some free) :
    release c st =
      PoolState.mk st.contexts (free :: st.busy.erase c) rest
        (st.timerArmed.erase t) ((t, free) :: st.resolvedWith) st.timedOut := by
  unfold release
  rw [if_pos hb]
  simp only [hwq, acquireImmediate, hfind]

/-- `_release` on a busy context with a waiting head ticket, when
`_acquireImmediate` finds no free context (the race branch): the popped ticket is
reinserted at the head and nothing else about the tickets changes. -/
theorem release_race_eq (c : Ctx) (st : PoolState) (t : Nat) (rest : List Nat)
    (hb : c ∈ st.busy) (hwq : st.waitQueue = t :: rest)
    (hfind : st.contexts.find? (fun x => decide (x ∉ st.busy.erase c)) = none) :
    release c st =
      PoolState.mk st.contexts (st.busy.erase c) (t :: rest)
        st.timerArmed st.resolvedWith st.timedOut := by
  unfold release
  rw [if_pos hb]
  simp only [hwq, acquireImmediate, hfind]

/-- `_release` preserves the ticket invariant: a hand-off settles exactly the
(unsettled) head ticket, cancelling its timer in the same task; the race branch
leaves the queue as it was. -/
theorem inv7_release (c : Ctx) (st : PoolState) (h : Inv7 st) : Inv7 (release c st) := by
  obtain ⟨hqN, haN, hrN, hq, hr, hto⟩ := h
  by_cases hb : c ∈ st.busy
  · rcases hwq : st.waitQueue with _ | ⟨t, rest⟩
    · rw [release_nil_eq c st hb hwq]
      exact ⟨hqN, haN, hrN, hq, hr, hto⟩
    · rw [hwq] at hqN hq hto
      rcases hfind : st.contexts.find? (fun x => decide (x ∉ st.busy.erase c)) with _ | free
      · rw [release_race_eq c st t rest hb hwq hfind]
        exact ⟨hqN, haN, hrN, hq, hr, hto⟩
      · rw [release_handoff_eq c st t rest free hb hwq hfind]
        have htr : t ∉ rest := (List.nodup_cons.mp hqN).1
        have hrestN : rest.Nodup := (List.nodup_cons.mp hqN).2
        obtain ⟨hta, htrs, httd⟩ := hq t (List.mem_cons_self t rest)
        refine ⟨hrestN, haN.erase t, ?_, ?_, ?_, ?_⟩
        · simp only [List.map_cons, List.nodup_cons]
          exact ⟨htrs, hrN⟩
        · intro x hx
          obtain ⟨hxa, hxr, hxd⟩ := hq x (List.mem_cons_of_mem t hx)
          have hxt : x ≠ t := fun hc => htr (hc ▸ hx)
          refine ⟨(List.mem_erase_of_ne hxt).mpr hxa, ?_, hxd⟩
          simp only [List.map_cons, List.mem_cons, not_or]
          exact ⟨hxt, hxr⟩
        · intro x hx
          simp only [List.map_cons, List.mem_cons] at hx
          rcases hx with rfl | hx
          · exact ⟨haN.not_mem_erase, httd⟩
          · obtain ⟨hxa, hxd⟩ := hr x hx
            exact ⟨fun hc => hxa (List.mem_of_mem_erase hc), hxd⟩
        · intro p hp
          obtain ⟨he, hpa, hpq⟩ := hto p hp
          exact ⟨he, fun hc => hpa (List.mem_of_mem_erase hc),
            fun hc => hpq (List.mem_cons_of_mem t hc)⟩
  · unfold release
    rw [if_neg hb]
    exact ⟨hqN, haN, hrN, hq, hr, hto⟩

/-- A new `acquireContextWait` call preserves the ticket invariant: it either
takes a context without touching the queue, fails fast when the queue is full, or
enqueues a brand-new ticket with an armed timer at the tail. -/
theorem inv7_acquire (queueMax tid : Nat) (st : PoolState) (h : Inv7 st)
    (hfresh : tid ∉ ticketIds st) : Inv7 ((acquireContextWait queueMax tid st).2) := by
  have h1 : tid ∉ st.waitQueue := fun hc => hfresh (by simp [ticketIds, hc])
  have h2 : tid ∉ st.timerArmed := fun hc => hfresh (by simp [ticketIds, hc])
  have h3 : tid ∉ st.resolvedWith.map Prod.fst := fun hc => hfresh (by simp [ticketIds, hc])
  have h4 : tid ∉ st.timedOut.map Prod.fst := fun hc => hfresh (by simp [ticketIds, hc])
  unfold acquireContextWait acquireImmediate
  rcases hfind : st.contexts.find? (fun x => decide (x ∉ st.busy)) with _ | c
  · simp only [hfind]
    by_cases hfull : queueMax ≤ st.waitQueue.length
    · rw [if_pos hfull]
      exact h
    · rw [if_neg hfull]
      obtain ⟨hqN, haN, hrN, hq, hr, hto⟩ := h
      refine ⟨?_, ?_, hrN, ?_, ?_, ?_⟩
      · refine hqN.append (List.nodup_singleton tid) ?_
        intro x hx hx'
        have hxt : x = tid := by simpa using hx'
        exact h1 (hxt ▸ hx)
      · refine haN.append (List.nodup_singleton tid) ?_
        intro x hx hx'
        have hxt : x = tid := by simpa using hx'
        exact h2 (hxt ▸ hx)
      · intro x hx
        rcases List.mem_append.mp hx with hx | hx
        · obtain ⟨hxa, hxr, hxd⟩ := hq x hx
          exact ⟨List.mem_append_left _ hxa, hxr, hxd⟩
        · have : x = tid := by simpa using hx
          subst this
          exact ⟨List.mem_append_right _ (by simp), h3, h4⟩
      · intro x hx
        obtain ⟨hxa, hxd⟩ := hr x hx
        refine ⟨?_, hxd⟩
        intro hc
        rcases List.mem_append.mp hc with hc | hc
        · exact hxa hc
        · have : x = tid := by simpa using hc
          exact h3 (this ▸ hx)
      · intro p hp
        obtain ⟨he, hpa, hpq⟩ := hto p hp
        refine ⟨he, ?_, ?_⟩
        · intro hc
          rcases List.mem_append.mp hc with hc | hc
          · exact hpa hc
          · have : p.1 = tid := by simpa using hc
            exact h4 (this ▸ List.mem_map_of_mem Prod.fst hp)
        · intro hc
          rcases List.mem_append.mp hc with hc | hc
          · exact hpq hc
          · have : p.1 = tid := by simpa using hc
            exact h4 (this ▸ List.mem_map_of_mem Prod.fst hp)
  · simp only [hfind]
    exact h

/-- Each event-loop task preserves the ticket invariant. -/
theorem inv7_stepEv (queueMax : Nat) (e : Event) (st : PoolState) (h : Inv7 st)
    (hv : validEv e st = true) : Inv7 (stepEv queueMax e st) := by
  cases e with
  | release c => exact inv7_release c st h
  | timer t => exact inv7_timerFire t st h
  | acquire tid =>
    have hfresh : tid ∉ ticketIds st := by simpa [validEv] using hv
    exact inv7_acquire queueMax tid st h hfresh
  | disconnect => exact h

/-- The ticket invariant holds after any valid event trace. -/
theorem inv7_run (queueMax : Nat) (evs : List Event) (st : PoolState) (h : Inv7 st)
    (hv : validFrom queueMax st evs = true) : Inv7 (runEvents queueMax st evs) := by
  induction evs generalizing st with
  | nil => exact h
  | cons e evs ih =>
    simp only [validFrom, Bool.and_eq_true] at hv
    exact ih (stepEv queueMax e st) (inv7_stepEv queueMax e st h hv.1) hv.2

/-- C7: along any valid trace of event-loop tasks (releases, timer firings,
acquires with fresh tickets, disconnects) from a state satisfying the ticket
invariant, hand-off and timeout remain mutually exclusive terminal events: no
ticket is ever resolved twice, a resolved ticket's timer was cancelled before its
resolver ran and it never also times out, and a timed-out ticket was removed from
the queue and rejected with the 503 Timeout error. -/
theorem C7_handoff_timeout_exclusive (queueMax : Nat) (st : PoolState) (evs : List Event)
    (hinv : Inv7 st) (hvalid : validFrom queueMax st evs = true) :
    ((runEvents queueMax st evs).resolvedWith.map Prod.fst).Nodup ∧
      (∀ t ∈ (runEvents queueMax st evs).resolvedWith.map Prod.fst,
        t ∉ (runEvents queueMax st evs).timerArmed ∧
          t ∉ (runEvents queueMax st evs).timedOut.map Prod.fst) ∧
      (∀ p ∈ (runEvents queueMax st evs).timedOut,
        p.2 = queueTimeoutError ∧ p.2.status = some 503 ∧
          p.1 ∉ (runEvents queueMax st evs).waitQueue) := by
  obtain ⟨_, _, hrN, _, hr, hto⟩ := inv7_run queueMax evs st hinv hvalid
  refine ⟨hrN, hr, fun p hp => ⟨(hto p hp).1, ?_, (hto p hp).2.2⟩⟩
  rw [(hto p hp).1]
  rfl

/-- Witness for C7: from a fresh one-context pool, a first acquire takes the
context, a second is queued as ticket 6, the release hands the context to ticket
6 (cancelling its timer), and a late timer task for ticket 6 is a no-op. -/
theorem C7_handoff_timeout_exclusive_witness :
    ((runEvents 24 (initState 1)
        [.acquire 5, .acquire 6, .release 0, .timer 6]).resolvedWith.map Prod.fst).Nodup ∧
      (∀ t ∈ (runEvents 24 (initState 1)
          [.acquire 5, .acquire 6, .release 0, .timer 6]).resolvedWith.map Prod.fst,
        t ∉ (runEvents 24 (initState 1)
            [.acquire 5, .acquire 6, .release 0, .timer 6]).timerArmed ∧
          t ∉ (runEvents 24 (initState 1)
              [.acquire 5, .acquire 6, .release 0, .timer 6]).timedOut.map Prod.fst) ∧
      (∀ p ∈ (runEvents 24 (initState 1)
          [.acquire 5, .acquire 6, .release 0, .timer 6]).timedOut,
        p.2 = queueTimeoutError ∧ p.2.status = some 503 ∧
          p.1 ∉ (runEvents 24 (initState 1)
              [.acquire 5, .acquire 6, .release 0, .timer 6]).waitQueue) :=
  C7_handoff_timeout_exclusive 24 (initState 1) [.acquire 5, .acquire 6, .release 0, .timer 6]
    (by decide) (by decide)

/-! ## Reuse-limit and lazy-growth lemmas (claims C1, C2) -/

/-- Usage-count invariant of the `part_002` pool: every entry of the `uses` map is
strictly below the reuse limit (a context reaching the limit is destroyed within
the same `releaseContext` call). -/
def InvU (reuseLimit : Nat) (st : CtxPool) : Prop :=
  ∀ p ∈ st.uses, p.2 < reuseLimit

instance (reuseLimit : Nat) (st : CtxPool) : Decidable (InvU reuseLimit st) := by
  unfold InvU; infer_instance

/-- Structural invariant of the `part_002` pool: the pool is never larger than
`BROWSER_POOL_MAX`, holds no duplicates, and every context id is below the
fresh-id counter. -/
def InvP (maxPool : Nat) (st : CtxPool) : Prop :=
  st.pool.length ≤ maxPool ∧ (∀ x ∈ st.pool, x < st.nextId) ∧ st.pool.Nodup

/-- Membership in the `uses` map after a `set`. -/
theorem usesSet_mem (l : List (Ctx × Nat)) (c : Ctx) (n : Nat) (p : Ctx × Nat) :
    p ∈ usesSet l c n ↔ p = (c, n) ∨ (p ∈ l ∧ p.1 ≠ c) := by
  simp [usesSet, List.mem_filter, bne_iff_ne]

/-- Membership in the `uses` map after a `delete`. -/
theorem usesDelete_mem (l : List (Ctx × Nat)) (c : Ctx) (p : Ctx × Nat) :
    p ∈ usesDelete l c ↔ p ∈ l ∧ p.1 ≠ c := by
  simp [usesDelete, List.mem_filter, bne_iff_ne]

/-- Fields of the pool after `createContext`. -/
theorem createContext_fields (st : CtxPool) :
    (createContext st).1 = st.nextId ∧
      (createContext st).2.pool = st.pool ++ [st.nextId] ∧
      (createContext st).2.available = st.available ++ [st.nextId] ∧
      (createContext st).2.uses = usesSet st.uses st.nextId 0 ∧
      (createContext st).2.waiters = st.waiters ∧
      (createContext st).2.nextId = st.nextId + 1 :=
  ⟨rfl, rfl, rfl, rfl, rfl, rfl⟩

/-- `createContext` preserves the usage-count invariant when the limit is
positive. -/
theorem invU_create (rl : Nat) (st : CtxPool) (h1 : 0 < rl) (h : InvU rl st) :
    InvU rl (createContext st).2 := by
  intro p hp
  rcases (usesSet_mem st.uses st.nextId 0 p).mp hp with rfl | ⟨hl, _⟩
  · exact h1
  · exact h p hl

/-- `createContext` preserves id freshness and pool `Nodup`, growing the pool by
one. -/
theorem createContext_struct (st : CtxPool)
    (hfresh : ∀ x ∈ st.pool, x < st.nextId) (hnd : st.pool.Nodup) :
    (∀ x ∈ (createContext st).2.pool, x < (createContext st).2.nextId) ∧
      (createContext st).2.pool.Nodup ∧
      (createContext st).2.pool.length = st.pool.length + 1 := by
  refine ⟨?_, ?_, by simp [createContext]⟩
  · intro x hx
    rcases List.mem_append.mp hx with hx | hx
    · exact Nat.lt_succ_of_lt (hfresh x hx)
    · have : x = st.nextId := by simpa using hx
      simp [createContext, this]
  · refine hnd.append (List.nodup_singleton _) ?_
    intro x hx hx'
    have hxe : x = st.nextId := by simpa using hx'
    exact absurd (hfresh x hx) (by simp [hxe])

/-- Fields of the pool after a `releaseContext` that hits the reuse limit:
the context is destroyed, its usage entry deleted, and a fresh replacement
created. -/
theorem releaseContext_destroy_fields (rl : Nat) (st : CtxPool) (c : Ctx)
    (h : rl ≤ usesGet st.uses c + 1) :
    (releaseContext rl st c).pool = st.pool.erase c ++ [st.nextId] ∧
      (releaseContext rl st c).uses =
        usesSet (usesDelete (usesSet st.uses c (usesGet st.uses c + 1)) c) st.nextId 0 ∧
      (releaseContext rl st c).available = st.available ++ [st.nextId] ∧
      (releaseContext rl st c).nextId = st.nextId + 1 := by
  by_cases hw : 0 < st.waiters <;>
    simp [releaseContext, createContext, h, hw]

/-- Fields of the pool after a `releaseContext` below the reuse limit: the usage
count is bumped and the context returned to `available`. -/
theorem releaseContext_keep_fields (rl : Nat) (st : CtxPool) (c : Ctx)
    (h : ¬ rl ≤ usesGet st.uses c + 1) :
    (releaseContext rl st c).pool = st.pool ∧
      (releaseContext rl st c).uses = usesSet st.uses c (usesGet st.uses c + 1) ∧
      (releaseContext rl st c).available = st.available ++ [c] ∧
      (releaseContext rl st c).nextId = st.nextId := by
  by_cases hw : 0 < st.waiters <;>
    simp [releaseContext, h, hw]

/-- `releaseContext` preserves the usage-count invariant. -/
theorem invU_release (rl : Nat) (st : CtxPool) (c : Ctx) (h1 : 0 < rl)
    (h : InvU rl st) : InvU rl (releaseContext rl st c) := by
  by_cases hlim : rl ≤ usesGet st.uses c + 1
  · obtain ⟨-, hu, -, -⟩ := releaseContext_destroy_fields rl st c hlim
    intro p hp
    rw [hu] at hp
    rcases (usesSet_mem _ _ _ p).mp hp with rfl | ⟨hp', _⟩
    · exact h1
    · obtain ⟨hp'', _⟩ := (usesDelete_mem _ _ p).mp hp'
      rcases (usesSet_mem _ _ _ p).mp hp'' with rfl | ⟨hl, _⟩
      · exact absurd rfl ((usesDelete_mem _ _ _).mp hp').2
      · exact h p hl
  · obtain ⟨-, hu, -, -⟩ := releaseContext_keep_fields rl st c hlim
    intro p hp
    rw [hu] at hp
    rcases (usesSet_mem _ _ _ p).mp hp with rfl | ⟨hl, _⟩
    · exact Nat.lt_of_not_le hlim
    · exact h p hl

/-- `acquireContext` preserves the usage-count invariant. -/
theorem invU_acquire (rl maxPool : Nat) (st : CtxPool) (h1 : 0 < rl)
    (h : InvU rl st) : InvU rl (acquireContext maxPool st).2 := by
  unfold acquireContext
  rcases hl : st.available.getLast? with _ | c
  · by_cases hlt : st.pool.length < maxPool
    · simpa [hl, hlt] using invU_create rl st h1 h
    · simpa [hl, hlt] using h
  · simpa [hl] using h

/-- `warmupLoop` preserves the usage-count invariant. -/
theorem invU_warmupLoop (rl : Nat) (h1 : 0 < rl) :
    ∀ (k : Nat) (st : CtxPool), InvU rl st → InvU rl (warmupLoop k st) := by
  intro k
  induction k with
  | zero => exact fun st h => h
  | succ k ih => exact fun st h => ih (createContext st).2 (invU_create rl st h1 h)

/-- Every `part_002` pool operation preserves the usage-count invariant. -/
theorem invU_step (rl maxPool : Nat) (op : PoolOp) (st : CtxPool) (h1 : 0 < rl)
    (h : InvU rl st) : InvU rl (stepPool rl maxPool op st) := by
  cases op with
  | acquire => exact invU_acquire rl maxPool st h1 h
  | release c => exact invU_release rl st c h1 h
  | warm size => exact invU_warmupLoop rl h1 _ st h

/-- The usage-count invariant holds after any operation sequence. -/
theorem invU_run (rl maxPool : Nat) (ops : List PoolOp) (st : CtxPool) (h1 : 0 < rl)
    (h : InvU rl st) : InvU rl (runPoolOps rl maxPool st ops) := by
  induction ops generalizing st with
  | nil => exact h
  | cons op ops ih => exact ih (stepPool rl maxPool op st) (invU_step rl maxPool op st h1 h)

/-- Reading back the usage count just set. -/
theorem usesGet_set_self (l : List (Ctx × Nat)) (c : Ctx) (n : Nat) :
    usesGet (usesSet l c n) c = n := by
  simp [usesGet, usesSet, List.lookup]

/-- `acquireContext` preserves the structural invariant. -/
theorem invP_acquire (maxPool : Nat) (st : CtxPool) (h : InvP maxPool st) :
    InvP maxPool (acquireContext maxPool st).2 := by
  obtain ⟨hlen, hfresh, hnd⟩ := h
  unfold acquireContext
  rcases hl : st.available.getLast? with _ | c
  · by_cases hlt : st.pool.length < maxPool
    · obtain ⟨hb, hn, hl1⟩ := createContext_struct st hfresh hnd
      simp only [hl, hlt, if_true]
      exact ⟨by rw [hl1]; omega, hb, hn⟩
    · simp only [hl, hlt, if_false]
      exact ⟨hlen, hfresh, hnd⟩
  · simp only [hl]
    exact ⟨hlen, hfresh, hnd⟩

/-- `releaseContext` of a pool member preserves the structural invariant: a
recycled context is replaced one-for-one. -/
theorem invP_release (rl maxPool : Nat) (st : CtxPool) (c : Ctx)
    (hc : c ∈ st.pool) (h : InvP maxPool st) : InvP maxPool (releaseContext rl st c) := by
  obtain ⟨hlen, hfresh, hnd⟩ := h
  by_cases hlim : rl ≤ usesGet st.uses c + 1
  · obtain ⟨hp, -, -, hn⟩ := releaseContext_destroy_fields rl st c hlim
    have hep : (st.pool.erase c).length = st.pool.length - 1 := List.length_erase_of_mem hc
    have hpos : 0 < st.pool.length := List.length_pos.mpr (List.ne_nil_of_mem hc)
    refine ⟨?_, ?_, ?_⟩
    · rw [hp]
      simp only [List.length_append, List.length_singleton, hep]
      omega
    · intro x hx
      rw [hp] at hx
      rw [hn]
      rcases List.mem_append.mp hx with hx | hx
      · exact Nat.lt_succ_of_lt (hfresh x (List.mem_of_mem_erase hx))
      · have hxe : x = st.nextId := by simpa using hx
        rw [hxe]
        exact Nat.lt_succ_self _
    · rw [hp]
      refine (hnd.erase c).append (List.nodup_singleton _) ?_
      intro x hx hx'
      have hxe : x = st.nextId := by simpa using hx'
      exact absurd (hfresh x (List.mem_of_mem_erase hx)) (by simp [hxe])
  · obtain ⟨hp, -, -, hn⟩ := releaseContext_keep_fields rl st c hlim
    rw [InvP, hp, hn]
    exact ⟨hlen, hfresh, hnd⟩

/-- `warmupLoop` grows the pool one context per iteration, preserving freshness
and `Nodup`. -/
theorem invP_warmupLoop :
    ∀ (k : Nat) (st : CtxPool), (∀ x ∈ st.pool, x < st.nextId) → st.pool.Nodup →
      (warmupLoop k st).pool.length = st.pool.length + k ∧
        (∀ x ∈ (warmupLoop k st).pool, x < (warmupLoop k st).nextId) ∧
        (warmupLoop k st).pool.Nodup := by
  intro k
  induction k with
  | zero => exact fun st hfresh hnd => ⟨rfl, hfresh, hnd⟩
  | succ k ih =>
    intro st hfresh hnd
    obtain ⟨hb, hn, hl1⟩ := createContext_struct st hfresh hnd
    obtain ⟨ihl, ihb, ihn⟩ := ih (createContext st).2 hb hn
    exact ⟨by rw [warmupLoop, ihl, hl1]; omega, ihb, ihn⟩

/-- `warmupPool` preserves the structural invariant: it only grows the pool up to
`min(BROWSER_POOL_SIZE, BROWSER_POOL_MAX)`. -/
theorem invP_warm (size maxPool : Nat) (st : CtxPool) (h : InvP maxPool st) :
    InvP maxPool (warmupPool size maxPool st) := by
  obtain ⟨hlen, hfresh, hnd⟩ := h
  obtain ⟨hl, hb, hn⟩ := invP_warmupLoop (min size maxPool - st.pool.length) st hfresh hnd
  unfold warmupPool
  refine ⟨?_, hb, hn⟩
  rw [hl]
  have := Nat.min_le_right size maxPool
  omega

/-- Every valid `part_002` pool operation preserves the structural invariant. -/
theorem invP_step (rl maxPool : Nat) (op : PoolOp) (st : CtxPool)
    (h : InvP maxPool st) (hv : validPoolOp op st = true) :
    InvP maxPool (stepPool rl maxPool op st) := by
  cases op with
  | acquire => exact invP_acquire maxPool st h
  | release c =>
    have hc : c ∈ st.pool := by simpa [validPoolOp] using hv
    exact invP_release rl maxPool st c hc h
  | warm size => exact invP_warm size maxPool st h

/-- The structural invariant holds after any valid operation sequence. -/
theorem invP_run (rl maxPool : Nat) (ops : List PoolOp) (st : CtxPool)
    (h : InvP maxPool st) (hv : validPoolOps rl maxPool st ops = true) :
    InvP maxPool (runPoolOps rl maxPool st ops) := by
  induction ops generalizing st with
  | nil => exact h
  | cons op ops ih =>
    simp only [validPoolOps, Bool.and_eq_true] at hv
    exact ih (stepPool rl maxPool op st) (invP_step rl maxPool op st h hv.1) hv.2

/-! ## Claim theorems: worker reuse and lazy growth (`src/unnamed/part_002`) -/

/-- C1: `releaseContext` increments the released worker's usage count; when the
count reaches the configured reuse limit the worker is destroyed and a fresh
replacement is created immediately (the pool size is unchanged), otherwise the
worker returns to the idle `available` list carrying the bumped count.
Consequently, along any operation sequence from the initial pool, every recorded
usage count stays strictly below the reuse limit between operations — no worker's
usage count ever exceeds the reuse limit before destruction and replacement. -/
theorem C1_reuse_limit_recycles (rl maxPool : Nat) (st : CtxPool) (c : Ctx)
    (h1 : 1 ≤ rl) (hinv : InvU rl st) (hc : c ∈ st.pool)
    (hfresh : ∀ x ∈ st.pool, x < st.nextId) (hnd : st.pool.Nodup) :
    (rl ≤ usesGet st.uses c + 1 →
        c ∉ (releaseContext rl st c).pool ∧
        st.nextId ∈ (releaseContext rl st c).pool ∧ st.nextId ∉ st.pool ∧
        (releaseContext rl st c).pool.length = st.pool.length) ∧
      (usesGet st.uses c + 1 < rl →
        (releaseContext rl st c).available = st.available ++ [c] ∧
        usesGet (releaseContext rl st c).uses c = usesGet st.uses c + 1) ∧
      InvU rl (releaseContext rl st c) ∧
      (∀ ops : List PoolOp, InvU rl (runPoolOps rl maxPool initCtxPool ops)) := by
  refine ⟨?_, ?_, invU_release rl st c h1 hinv, ?_⟩
  · intro hlim
    obtain ⟨hp, -, -, -⟩ := releaseContext_destroy_fields rl st c hlim
    rw [hp]
    refine ⟨?_, List.mem_append_right _ (by simp), ?_, ?_⟩
    · intro hcontr
      rcases List.mem_append.mp hcontr with hx | hx
      · exact hnd.not_mem_erase hx
      · have : c = st.nextId := by simpa using hx
        exact absurd (hfresh c hc) (by simp [this])
    · intro hcontr
      exact absurd (hfresh _ hcontr) (lt_irrefl _)
    · have hep : (st.pool.erase c).length = st.pool.length - 1 := List.length_erase_of_mem hc
      have hpos : 0 < st.pool.length := List.length_pos.mpr (List.ne_nil_of_mem hc)
      simp only [List.length_append, List.length_singleton, hep]
      omega
  · intro hlt
    obtain ⟨-, hu, ha, -⟩ := releaseContext_keep_fields rl st c (Nat.not_le_of_lt hlt)
    rw [ha, hu]
    exact ⟨rfl, usesGet_set_self st.uses c _⟩
  · intro ops
    exact invU_run rl maxPool ops initCtxPool h1 (fun p hp => absurd hp (by simp [initCtxPool]))

/-- A one-context pool whose context has been used once, one release short of a
reuse limit of two; fresh ids start at 1. -/
def demoCtxPool : CtxPool :=
  { pool := [0], available := [], uses := [(0, 1)], waiters := 0, nextId := 1 }

/-- Witness for C1: with reuse limit 2, releasing context 0 of `demoCtxPool`
(whose count is 1) reaches the limit: context 0 is destroyed and replaced by the
fresh context 1, the pool size stays 1, and all usage counts stay below 2. -/
theorem C1_reuse_limit_recycles_witness :
    (2 ≤ usesGet demoCtxPool.uses 0 + 1 →
        0 ∉ (releaseContext 2 demoCtxPool 0).pool ∧
        demoCtxPool.nextId ∈ (releaseContext 2 demoCtxPool 0).pool ∧
        demoCtxPool.nextId ∉ demoCtxPool.pool ∧
        (releaseContext 2 demoCtxPool 0).pool.length = demoCtxPool.pool.length) ∧
      (usesGet demoCtxPool.uses 0 + 1 < 2 →
        (releaseContext 2 demoCtxPool 0).available = demoCtxPool.available ++ [0] ∧
        usesGet (releaseContext 2 demoCtxPool 0).uses 0 = usesGet demoCtxPool.uses 0 + 1) ∧
      InvU 2 (releaseContext 2 demoCtxPool 0) ∧
      (∀ ops : List PoolOp, InvU 2 (runPoolOps 2 8 initCtxPool ops)) :=
  C1_reuse_limit_recycles 2 8 demoCtxPool 0 (by decide) (by decide) (by decide)
    (by decide) (by decide)

/-- C2: when `acquireContext` finds no idle worker and the pool is below
`BROWSER_POOL_MAX`, it creates a brand-new worker and returns it immediately,
growing the pool by exactly one while staying within the maximum; and along any
valid operation sequence from the empty initial pool the pool size never exceeds
`BROWSER_POOL_MAX` — the pool grows lazily on demand up to the maximum instead of
being created at full size up front. -/
theorem C2_lazy_growth (maxPool : Nat) (st : CtxPool)
    (hav : st.available = []) (hlt : st.pool.length < maxPool)
    (hfresh : ∀ x ∈ st.pool, x < st.nextId) :
    (acquireContext maxPool st).1 = .created st.nextId ∧
      st.nextId ∉ st.pool ∧
      (acquireContext maxPool st).2.pool = st.pool ++ [st.nextId] ∧
      (acquireContext maxPool st).2.pool.length = st.pool.length + 1 ∧
      (acquireContext maxPool st).2.pool.length ≤ maxPool ∧
      (∀ (rl : Nat) (ops : List PoolOp), validPoolOps rl maxPool initCtxPool ops = true →
        (runPoolOps rl maxPool initCtxPool ops).pool.length ≤ maxPool) := by
  have hres : acquireContext maxPool st = (.created st.nextId, (createContext st).2) := by
    unfold acquireContext
    simp [hav, hlt, createContext]
  refine ⟨by rw [hres], ?_, by rw [hres]; rfl, ?_, ?_, ?_⟩
  · intro hcontr
    exact absurd (hfresh _ hcontr) (lt_irrefl _)
  · rw [hres]
    simp [createContext]
  · rw [hres]
    simp only [createContext, List.length_append, List.length_singleton]
    omega
  · intro rl ops hv
    have hinit : InvP maxPool initCtxPool :=
      ⟨Nat.zero_le _, fun x hx => absurd hx (by simp [initCtxPool]), by simp [initCtxPool]⟩
    exact (invP_run rl maxPool ops initCtxPool hinit hv).1

/-- A one-context pool with no idle context and fresh ids starting at 1, below
the maximum of 8. -/
def demoCtxPoolBusy : CtxPool :=
  { pool := [0], available := [], uses := [(0, 0)], waiters := 0, nextId := 1 }

/-- Witness for C2: acquiring from `demoCtxPoolBusy` (no idle context, one of at
most eight) creates and returns the fresh context 1 immediately, growing the pool
to two. -/
theorem C2_lazy_growth_witness :
    (acquireContext 8 demoCtxPoolBusy).1 = .created demoCtxPoolBusy.nextId ∧
      demoCtxPoolBusy.nextId ∉ demoCtxPoolBusy.pool ∧
      (acquireContext 8 demoCtxPoolBusy).2.pool =
        demoCtxPoolBusy.pool ++ [demoCtxPoolBusy.nextId] ∧
      (acquireContext 8 demoCtxPoolBusy).2.pool.length = demoCtxPoolBusy.pool.length + 1 ∧
      (acquireContext 8 demoCtxPoolBusy).2.pool.length ≤ 8 ∧
      (∀ (rl : Nat) (ops : List PoolOp), validPoolOps rl 8 initCtxPool ops = true →
        (runPoolOps rl 8 initCtxPool ops).pool.length ≤ 8) :=
  C2_lazy_growth 8 demoCtxPoolBusy rfl (by decide) (by decide)

end PdfService
